import Mathlib

/-!
# Verification of the `n8n-nodes-hedera` node (`nodes/Hedera/Hedera.node.ts`)

A shallow embedding of the node's `execute` method and of the core pipeline
its specification describes.  JavaScript strings become `String`, byte
buffers become `List Nat` (each element a byte value `< 256`), thrown
exceptions become `Except`, and the calls into the `@hashgraph/sdk`
network client are represented by an explicit oracle record (`Net`) whose
fields supply the outcome of each network round trip.
-/

namespace HederaNode

set_option autoImplicit false

/-! ## Base64, modelling Node's `Buffer.from(s, 'base64')` /
    `buf.toString('base64')` on canonical input -/

/-- The standard base64 alphabet, in index order. -/
def b64alphabet : List Char :=
  ['A','B','C','D','E','F','G','H','I','J','K','L','M',
   'N','O','P','Q','R','S','T','U','V','W','X','Y','Z',
   'a','b','c','d','e','f','g','h','i','j','k','l','m',
   'n','o','p','q','r','s','t','u','v','w','x','y','z',
   '0','1','2','3','4','5','6','7','8','9','+','/']

/-- Character for a sextet value. -/
def b64char (n : Nat) : Char := b64alphabet.getD n 'A'

/-- Sextet value of an alphabet character, `none` for a non-alphabet char. -/
def b64index (c : Char) : Option Nat := b64alphabet.indexOf? c

/-- Base64 encoding of a byte list, processing three bytes at a time and
padding the final chunk with `=`. -/
def encodeB64 : List Nat → List Char
  | [] => []
  | [a] =>
      [b64char (a % 256 / 4), b64char (a % 256 % 4 * 16), '=', '=']
  | [a, b] =>
      [b64char (a % 256 / 4), b64char (a % 256 % 4 * 16 + b % 256 / 16),
       b64char (b % 256 % 16 * 4), '=']
  | a :: b :: c :: rest =>
      b64char (a % 256 / 4) :: b64char (a % 256 % 4 * 16 + b % 256 / 16) ::
      b64char (b % 256 % 16 * 4 + c % 256 / 64) :: b64char (c % 256 % 64) ::
      encodeB64 rest

/-- Base64 decoding of a character list, four characters at a time,
accepting `=` padding only at the very end. -/
def decodeB64 : List Char → Option (List Nat)
  | [] => some []
  | c1 :: c2 :: c3 :: c4 :: rest =>
      match b64index c1, b64index c2 with
      | some s1, some s2 =>
          if c3 = '=' then
            if c4 = '=' ∧ rest = [] then some [s1 * 4 + s2 / 16] else none
          else
            match b64index c3 with
            | some s3 =>
                if c4 = '=' then
                  if rest = [] then
                    some [s1 * 4 + s2 / 16, s2 % 16 * 16 + s3 / 4]
                  else none
                else
                  match b64index c4, decodeB64 rest with
                  | some s4, some tail =>
                      some ((s1 * 4 + s2 / 16) :: (s2 % 16 * 16 + s3 / 4) ::
                            (s3 % 4 * 64 + s4) :: tail)
                  | _, _ => none
            | none => none
      | _, _ => none
  | _ => none

theorem b64index_b64char : ∀ n, n < 64 → b64index (b64char n) = some n := by
  decide

theorem b64char_ne_eq : ∀ n, n < 64 → b64char n ≠ '=' := by
  decide

/-- Decoding inverts encoding on byte lists. -/
theorem decodeB64_encodeB64 :
    ∀ bs : List Nat, (∀ x ∈ bs, x < 256) → decodeB64 (encodeB64 bs) = some bs
  | [], _ => rfl
  | [a], h => by
      have ha : a < 256 := h a (by simp)
      have h1 : a % 256 / 4 < 64 := by omega
      have h2 : a % 256 % 4 * 16 < 64 := by omega
      simp only [encodeB64, decodeB64, b64index_b64char _ h1,
        b64index_b64char _ h2]
      simp only [if_pos rfl, and_self, reduceIte, Option.some.injEq,
        List.cons.injEq, and_true]
      omega
  | [a, b], h => by
      have ha : a < 256 := h a (by simp)
      have hb : b < 256 := h b (by simp)
      have h1 : a % 256 / 4 < 64 := by omega
      have h2 : a % 256 % 4 * 16 + b % 256 / 16 < 64 := by omega
      have h3 : b % 256 % 16 * 4 < 64 := by omega
      simp only [encodeB64, decodeB64, b64index_b64char _ h1,
        b64index_b64char _ h2]
      rw [if_neg (b64char_ne_eq _ h3)]
      simp only [b64index_b64char _ h3]
      simp only [if_true, Option.some.injEq, List.cons.injEq, and_true]
      constructor <;> omega
  | a :: b :: c :: rest, h => by
      have ha : a < 256 := h a (by simp)
      have hb : b < 256 := h b (by simp)
      have hc : c < 256 := h c (by simp)
      have ih : decodeB64 (encodeB64 rest) = some rest :=
        decodeB64_encodeB64 rest (fun x hx => h x (by simp [hx]))
      have h1 : a % 256 / 4 < 64 := by omega
      have h2 : a % 256 % 4 * 16 + b % 256 / 16 < 64 := by omega
      have h3 : b % 256 % 16 * 4 + c % 256 / 64 < 64 := by omega
      have h4 : c % 256 % 64 < 64 := by omega
      simp only [encodeB64, decodeB64, b64index_b64char _ h1,
        b64index_b64char _ h2]
      rw [if_neg (b64char_ne_eq _ h3)]
      simp only [b64index_b64char _ h3]
      rw [if_neg (b64char_ne_eq _ h4)]
      simp only [b64index_b64char _ h4, ih, Option.some.injEq,
        List.cons.injEq, and_true]
      refine ⟨by omega, by omega, by omega⟩

/-! ## Errors thrown inside the per-item `try` block -/

/-- The exceptions the per-item body can throw: `NodeOperationError`s raised
by the node itself and errors thrown by the SDK (parse failures, network
failures, rejected receipts). -/
inductive ExecError where
  | operationError (msg : String)
  | unsupportedResource (value : String)
  | unsupportedAccountOperation (value : String)
  | unsupportedTransactionOperation (value : String)
  | invalidBufferObject
  | hbarDecimals
  | sdkError (msg : String)
deriving DecidableEq

/-- `(err as Error).message` for each modelled exception; the message texts
for the node's own errors are the literals of `Hedera.node.ts`. -/
def errMessage : ExecError → String
  | .operationError msg => msg
  | .unsupportedResource v => "Unsupported resource: " ++ v
  | .unsupportedAccountOperation v => "Unsupported account operation: " ++ v
  | .unsupportedTransactionOperation v => "Unsupported transaction operation: " ++ v
  | .invalidBufferObject =>
      "Invalid buffer object format. Expected object with data array or direct array."
  | .hbarDecimals => "Hbar in tinybars contains decimals"
  | .sdkError msg => msg

/-! ## The `transactionBuffer` parameter and `getTransactionBytes` -/

/-- A JSON value passed as the `transactionBuffer` parameter: an object
(with the optional `data`, `transBytes.data` and `transBase64.data` member
arrays the node probes for), a direct array, or anything else. -/
inductive JsValue where
  | obj (data transBytesData transBase64Data : Option (List Nat))
  | arr (elems : List Nat)
  | other
deriving DecidableEq

/-- The buffer-branch probing chain of `getTransactionBytes`:
`bufferObj?.data`, then `bufferObj?.transBytes?.data`, then
`bufferObj?.transBase64?.data`, then `Array.isArray(bufferObj)`,
else the invalid-buffer error. -/
def bufferObjData : JsValue → Except ExecError (List Nat)
  | .obj (some d) _ _ => .ok d
  | .obj none (some d) _ => .ok d
  | .obj none none (some d) => .ok d
  | .obj none none none => .error .invalidBufferObject
  | .arr elems => .ok elems
  | .other => .error .invalidBufferObject

/-- `Buffer.from(s, 'base64')`; total in Node, modelled on canonical input
through `decodeB64` with junk decoding to the empty buffer. -/
def bufferFromBase64 (s : String) : List Nat := (decodeB64 s.data).getD []

/-- The helper closure `getTransactionBytes` of the transaction branch:
base64 format decodes the `transaction` string parameter, any other format
value takes the buffer-object path (`Buffer.from(number[])` keeps each
entry modulo 256). -/
def getTransactionBytes (transactionFormat : String) (transaction : String)
    (transactionBuffer : JsValue) : Except ExecError (List Nat) :=
  if transactionFormat = "base64" then
    .ok (bufferFromBase64 transaction)
  else
    match bufferObjData transactionBuffer with
    | .ok d => .ok (d.map (· % 256))
    | .error e => .error e

/-! ## Amounts

The node converts the decimal `amount` / `initialBalance` parameters with
the SDK's `Hbar` constructor. -/

/-- Modelled from the spec: the `Hbar` amount constructor lives in
`@hashgraph/sdk`, not in this repository.  Per spec section 3 (Amount) it
scales a decimal major-unit value by the fixed exponent of 8 decimal
places into an integer tinybar count and rejects a value whose precision
exceeds 8 decimals rather than silently truncating it. -/
def amountFromMajor (q : ℚ) : Except ExecError Int :=
  if (q * 10 ^ 8).den = 1 then .ok (q * 10 ^ 8).num else .error .hbarDecimals

theorem amountFromMajor_eq_ok (q : ℚ) (n : ℤ) (h : q * 10 ^ 8 = (n : ℚ)) :
    amountFromMajor q = .ok n := by
  unfold amountFromMajor
  rw [h]
  simp [Rat.den_intCast, Rat.num_intCast]

/-- The two-sided transfer list the transfer branch builds:
`.addHbarTransfer(accountId, hbarAmount.negated())` then
`.addHbarTransfer(recipientId, hbarAmount)`, amounts in tinybars. -/
def transferList (senderId recipientId : String) (tinybars : Int) :
    List (String × Int) :=
  [(senderId, -tinybars), (recipientId, tinybars)]

/-! ## The network oracle and per-item results -/

/-- Receipt of an `AccountCreateTransaction`. -/
structure CreateReceipt where
  accountId : Option String
  status : String
deriving DecidableEq

/-- Response plus receipt of a `TransferTransaction`. -/
structure TransferOut where
  status : String
  transactionId : String
deriving DecidableEq

/-- Response plus receipt of a submitted transaction. -/
structure SubmitOut where
  transactionId : String
  nodeId : Option String
  transactionHash : String
  status : String
deriving DecidableEq

/-- Oracle for the SDK calls the item body performs: key generation and one
field per network round trip, each returning either the SDK value or the
exception the call throws. -/
structure Net where
  newPublicKey : String
  newPrivateKey : String
  createOutcome : Int → Except ExecError CreateReceipt
  transferOutcome : List (String × Int) → Except ExecError TransferOut
  signOutcome : List Nat → Except ExecError String
  submitOutcome : List Nat → Except ExecError SubmitOut
  signAndSubmitOutcome : List Nat → Except ExecError (SubmitOut × String)

/-- The operation-specific success record, one constructor per record
literal assigned to `result` in the node. -/
inductive ExecResult where
  | createRes (newAccountId newAccountPublicKey newAccountPrivateKey : String)
  | transferRes (status transactionId : String)
  | signRes (signedTransaction : String)
  | submitRes (transactionId nodeId transactionHash status : String)
  | signAndSubmitRes
      (transactionId nodeId transactionHash status signedTransaction : String)
deriving DecidableEq

/-- The JSON keys of each success record, in the order of the record
literals of `Hedera.node.ts`. -/
def resultKeys : ExecResult → List String
  | .createRes _ _ _ =>
      ["newAccountId", "newAccountPublicKey", "newAccountPrivateKey"]
  | .transferRes _ _ => ["status", "transactionId"]
  | .signRes _ => ["signedTransaction"]
  | .submitRes _ _ _ _ =>
      ["transactionId", "nodeId", "transactionHash", "status"]
  | .signAndSubmitRes _ _ _ _ _ =>
      ["transactionId", "nodeId", "transactionHash", "status",
       "signedTransaction"]

/-! ## One item of the batch -/

/-- The node parameters read for one input item. -/
structure Request where
  resource : String
  accountOperation : String
  transactionOperation : String
  transactionFormat : String
  recipientId : String
  amount : ℚ
  initialBalance : ℚ
  transaction : String
  transactionBuffer : JsValue

/-- The body of the `try` block for one item: dispatch on
`resource` / operation, run the handler, and build the success record. -/
def processItem (accountId : String) (req : Request) (net : Net) :
    Except ExecError ExecResult :=
  if req.resource = "account" then
    if req.accountOperation = "create" then
      match amountFromMajor req.initialBalance with
      | .error e => .error e
      | .ok bal =>
          match net.createOutcome bal with
          | .error e => .error e
          | .ok receipt =>
              match receipt.accountId with
              | none =>
                  .error (.operationError
                    ("Account creation failed: " ++ receipt.status))
              | some acct =>
                  .ok (.createRes acct net.newPublicKey net.newPrivateKey)
    else if req.accountOperation = "transfer" then
      match amountFromMajor req.amount with
      | .error e => .error e
      | .ok t =>
          match net.transferOutcome (transferList accountId req.recipientId t) with
          | .error e => .error e
          | .ok out => .ok (.transferRes out.status out.transactionId)
    else .error (.unsupportedAccountOperation req.accountOperation)
  else if req.resource = "transaction" then
    if req.transactionOperation = "sign" then
      match getTransactionBytes req.transactionFormat req.transaction
          req.transactionBuffer with
      | .error e => .error e
      | .ok bytes =>
          match net.signOutcome bytes with
          | .error e => .error e
          | .ok signedB64 => .ok (.signRes signedB64)
    else if req.transactionOperation = "submit" then
      match getTransactionBytes req.transactionFormat req.transaction
          req.transactionBuffer with
      | .error e => .error e
      | .ok bytes =>
          match net.submitOutcome bytes with
          | .error e => .error e
          | .ok out =>
              .ok (.submitRes out.transactionId (out.nodeId.getD "")
                out.transactionHash out.status)
    else if req.transactionOperation = "signAndSubmit" then
      match getTransactionBytes req.transactionFormat req.transaction
          req.transactionBuffer with
      | .error e => .error e
      | .ok bytes =>
          match net.signAndSubmitOutcome bytes with
          | .error e => .error e
          | .ok (out, signedB64) =>
              .ok (.signAndSubmitRes out.transactionId (out.nodeId.getD "")
                out.transactionHash out.status signedB64)
    else .error (.unsupportedTransactionOperation req.transactionOperation)
  else .error (.unsupportedResource req.resource)

/-! ## The batch loop and `execute` -/

/-- One entry of `returnData`: `{ json: result }` on success,
`{ json: { error: message } }` for an isolated per-item failure. -/
inductive Record where
  | json (result : ExecResult)
  | errorJson (message : String)
deriving DecidableEq

/-- What `execute` can throw: the credentials `NodeOperationError` before
the loop, or a `NodeApiError` wrapping an item error in fail-fast mode. -/
inductive Thrown where
  | configurationError (message : String)
  | apiError (cause : ExecError)
deriving DecidableEq

/-- The decrypted `hederaApi` credential object; fields are `Option` so a
missing member is distinguishable from an empty string (both are falsy). -/
structure Credentials where
  accountId : Option String
  privateKey : Option String
  network : String
deriving DecidableEq

/-- JavaScript falsiness of an optional string member. -/
def falsyStr : Option String → Bool
  | none => true
  | some s => s = ""

/-- The `for` loop over items: each item's thrown error is converted to an
error record when `continueOnFail()` holds, and rethrown as a
`NodeApiError` otherwise. -/
def executeLoop (continueOnFail : Bool) (accountId : String) :
    List (Request × Net) → Except Thrown (List Record)
  | [] => .ok []
  | (req, net) :: rest =>
      match processItem accountId req net with
      | .ok r =>
          match executeLoop continueOnFail accountId rest with
          | .ok recs => .ok (.json r :: recs)
          | .error t => .error t
      | .error e =>
          if continueOnFail then
            match executeLoop continueOnFail accountId rest with
            | .ok recs => .ok (.errorJson (errMessage e) :: recs)
            | .error t => .error t
          else .error (.apiError e)

/-- `Hedera.execute`: the credential check (`!creds?.accountId ||
!creds.privateKey` throws a `NodeOperationError`), then the loop over the
input items. -/
def execute (continueOnFail : Bool) (creds : Option Credentials)
    (items : List (Request × Net)) : Except Thrown (List Record) :=
  match creds with
  | none =>
      .error (.configurationError "Hedera credentials are not set up correctly.")
  | some c =>
      if falsyStr c.accountId ∨ falsyStr c.privateKey then
        .error (.configurationError "Hedera credentials are not set up correctly.")
      else executeLoop continueOnFail (c.accountId.getD "") items

/-- The record item `i` contributes in isolated-failure mode. -/
def recordOf (accountId : String) (item : Request × Net) : Record :=
  match processItem accountId item.1 item.2 with
  | .ok r => .json r
  | .error e => .errorJson (errMessage e)

/-! ## The codec

Modelled from the spec: the transaction codec used by the sign, submit and
signAndSubmit operations is `Transaction.toBytes` / `Transaction.fromBytes`
of `@hashgraph/sdk`, absent from this repository.  Spec sections 3 and 4.3
fix its interface: typed unsigned payloads (AccountCreate, multi-party
Transfer honoring the zero-sum representation), signed transactions as an
unsigned body plus signatures, a canonical byte wire form, and an exact
round trip `decode (encode t) = t` on valid transactions. -/

/-- `shard.realm.number` account identity. -/
structure AccountIdT where
  shard : Nat
  realm : Nat
  num : Nat
deriving DecidableEq

/-- Typed unsigned transaction payloads (spec section 3). -/
inductive UnsignedTx where
  | accountCreate (publicKey : List Nat) (initialBalance : Int)
  | transfer (entries : List (AccountIdT × Int))
deriving DecidableEq

/-- A signed transaction: unsigned body plus signatures. -/
structure SignedTx where
  body : UnsignedTx
  sigs : List (List Nat)
deriving DecidableEq

/-- What the codec serializes: an unsigned or a signed transaction. -/
inductive SpecTx where
  | unsigned (t : UnsignedTx)
  | signed (t : SignedTx)
deriving DecidableEq

/-- Fixed-width little-endian byte encoding of a natural number. -/
def encLE : Nat → Nat → List Nat
  | 0, _ => []
  | k + 1, n => n % 256 :: encLE k (n / 256)

/-- Reads back a fixed-width little-endian natural number. -/
def parseLE : Nat → List Nat → Option (Nat × List Nat)
  | 0, bs => some (0, bs)
  | _ + 1, [] => none
  | k + 1, b :: bs =>
      match parseLE k bs with
      | some (v, rest) => some (b % 256 + 256 * v, rest)
      | none => none

/-- Sign-byte plus 8-byte-magnitude encoding of an integer. -/
def encInt (i : Int) : List Nat :=
  (if i < 0 then 1 else 0) :: encLE 8 i.natAbs

/-- Reads back a sign-byte-plus-magnitude integer. -/
def parseInt8 : List Nat → Option (Int × List Nat)
  | [] => none
  | s :: bs =>
      match parseLE 8 bs with
      | some (v, rest) =>
          if s = 0 then some ((v : Int), rest)
          else if s = 1 then some (-(v : Int), rest)
          else none
      | none => none

/-- Length-prefixed byte-string encoding. -/
def encBytes (bs : List Nat) : List Nat := encLE 4 bs.length ++ bs

/-- Reads back a length-prefixed byte string. -/
def parseBytes (input : List Nat) : Option (List Nat × List Nat) :=
  match parseLE 4 input with
  | some (len, rest) =>
      if len ≤ rest.length then some (rest.take len, rest.drop len) else none
  | none => none

/-- Account identity as three 8-byte fields. -/
def encAccountId (a : AccountIdT) : List Nat :=
  encLE 8 a.shard ++ encLE 8 a.realm ++ encLE 8 a.num

/-- Reads back an account identity. -/
def parseAccountId (bs : List Nat) : Option (AccountIdT × List Nat) :=
  match parseLE 8 bs with
  | some (s, r1) =>
      match parseLE 8 r1 with
      | some (re, r2) =>
          match parseLE 8 r2 with
          | some (n, r3) => some (⟨s, re, n⟩, r3)
          | none => none
      | none => none
  | none => none

/-- Count-prefixed list encoding. -/
def encListWith {α : Type} (f : α → List Nat) (xs : List α) : List Nat :=
  encLE 4 xs.length ++ xs.foldr (fun x acc => f x ++ acc) []

/-- Reads back exactly `k` items with the item parser `p`. -/
def parseCount {α : Type} (p : List Nat → Option (α × List Nat)) :
    Nat → List Nat → Option (List α × List Nat)
  | 0, bs => some ([], bs)
  | k + 1, bs =>
      match p bs with
      | some (a, rest) =>
          match parseCount p k rest with
          | some (as, r2) => some (a :: as, r2)
          | none => none
      | none => none

/-- Reads back a count-prefixed list. -/
def parseListWith {α : Type} (p : List Nat → Option (α × List Nat))
    (bs : List Nat) : Option (List α × List Nat) :=
  match parseLE 4 bs with
  | some (n, rest) => parseCount p n rest
  | none => none

/-- One transfer-list entry: account identity and signed tinybar amount. -/
def encEntry (e : AccountIdT × Int) : List Nat :=
  encAccountId e.1 ++ encInt e.2

/-- Reads back one transfer-list entry. -/
def parseEntry (bs : List Nat) : Option ((AccountIdT × Int) × List Nat) :=
  match parseAccountId bs with
  | some (a, r) =>
      match parseInt8 r with
      | some (i, r2) => some ((a, i), r2)
      | none => none
  | none => none

/-- Tagged encoding of an unsigned transaction payload. -/
def encUnsignedTx : UnsignedTx → List Nat
  | .accountCreate pk bal => 0 :: (encBytes pk ++ encInt bal)
  | .transfer entries => 1 :: encListWith encEntry entries

/-- Reads back an unsigned transaction payload. -/
def parseUnsignedTx : List Nat → Option (UnsignedTx × List Nat)
  | 0 :: bs =>
      match parseBytes bs with
      | some (pk, r) =>
          match parseInt8 r with
          | some (bal, r2) => some (.accountCreate pk bal, r2)
          | none => none
      | none => none
  | 1 :: bs =>
      match parseListWith parseEntry bs with
      | some (es, r) => some (.transfer es, r)
      | none => none
  | _ => none

/-- Tagged encoding of an unsigned or signed transaction. -/
def encSpecTx : SpecTx → List Nat
  | .unsigned t => 0 :: encUnsignedTx t
  | .signed s => 1 :: (encUnsignedTx s.body ++ encListWith encBytes s.sigs)

/-- Reads back an unsigned or signed transaction. -/
def parseSpecTx : List Nat → Option (SpecTx × List Nat)
  | 0 :: bs =>
      match parseUnsignedTx bs with
      | some (t, r) => some (.unsigned t, r)
      | none => none
  | 1 :: bs =>
      match parseUnsignedTx bs with
      | some (t, r) =>
          match parseListWith parseBytes r with
          | some (gs, r2) => some (.signed ⟨t, gs⟩, r2)
          | none => none
      | none => none
  | _ => none

/-- `encode(transaction) -> bytes` of spec section 4.3. -/
def encode (t : SpecTx) : List Nat := encSpecTx t

/-- `decode(bytes) -> UnsignedTransaction | SignedTransaction` of spec
section 4.3; fails on trailing or structurally invalid input. -/
def decode (bs : List Nat) : Option SpecTx :=
  match parseSpecTx bs with
  | some (t, rest) => if rest = [] then some t else none
  | none => none

/-- Validity of an unsigned payload: fields fit their wire widths and byte
entries are bytes. -/
def UnsignedTx.Valid : UnsignedTx → Prop
  | .accountCreate pk bal =>
      pk.length < 256 ^ 4 ∧ (∀ x ∈ pk, x < 256) ∧ bal.natAbs < 256 ^ 8
  | .transfer entries =>
      entries.length < 256 ^ 4 ∧
      ∀ e ∈ entries, e.1.shard < 256 ^ 8 ∧ e.1.realm < 256 ^ 8 ∧
        e.1.num < 256 ^ 8 ∧ e.2.natAbs < 256 ^ 8

/-- Validity of a transaction: the body is valid and every signature fits
its wire width. -/
def SpecTx.Valid : SpecTx → Prop
  | .unsigned t => t.Valid
  | .signed s =>
      s.body.Valid ∧ s.sigs.length < 256 ^ 4 ∧
      ∀ g ∈ s.sigs, g.length < 256 ^ 4 ∧ ∀ x ∈ g, x < 256

/-! ### Codec round-trip lemmas -/

theorem parseLE_encLE : ∀ (k n : Nat), n < 256 ^ k → ∀ rest,
    parseLE k (encLE k n ++ rest) = some (n, rest)
  | 0, n, h, rest => by
      have hn : n = 0 := by
        have : (256 : Nat) ^ 0 = 1 := pow_zero 256
        omega
      subst hn
      rfl
  | k + 1, n, h, rest => by
      have hdiv : n / 256 < 256 ^ k := by
        have hpow : 256 ^ (k + 1) = 256 * 256 ^ k := by ring
        exact Nat.div_lt_of_lt_mul (hpow ▸ h)
      have ih := parseLE_encLE k (n / 256) hdiv rest
      have heq : n % 256 % 256 + 256 * (n / 256) = n := by omega
      simp only [encLE, List.cons_append, parseLE, List.append_eq, ih, heq]

theorem parseInt8_encInt (i : Int) (h : i.natAbs < 256 ^ 8) (rest : List Nat) :
    parseInt8 (encInt i ++ rest) = some (i, rest) := by
  by_cases hneg : i < 0
  · simp only [encInt, if_pos hneg, parseInt8, List.cons_append,
      parseLE_encLE 8 i.natAbs h rest]
    simp [abs_of_neg hneg]
  · simp only [encInt, if_neg hneg, parseInt8, List.cons_append,
      parseLE_encLE 8 i.natAbs h rest]
    have habs : (i.natAbs : Int) = i := by omega
    simp [habs]

theorem parseBytes_encBytes (bs : List Nat) (h : bs.length < 256 ^ 4)
    (rest : List Nat) : parseBytes (encBytes bs ++ rest) = some (bs, rest) := by
  simp only [encBytes, List.append_assoc,
    parseBytes, parseLE_encLE 4 bs.length h (bs ++ rest)]
  rw [if_pos (by simp)]
  rw [List.take_left, List.drop_left]

theorem parseAccountId_encAccountId (a : AccountIdT)
    (hs : a.shard < 256 ^ 8) (hr : a.realm < 256 ^ 8) (hn : a.num < 256 ^ 8)
    (rest : List Nat) :
    parseAccountId (encAccountId a ++ rest) = some (a, rest) := by
  simp only [encAccountId, List.append_assoc, parseAccountId,
    parseLE_encLE 8 a.shard hs, parseLE_encLE 8 a.realm hr,
    parseLE_encLE 8 a.num hn]

theorem parseEntry_encEntry (e : AccountIdT × Int)
    (hs : e.1.shard < 256 ^ 8) (hr : e.1.realm < 256 ^ 8)
    (hn : e.1.num < 256 ^ 8) (ha : e.2.natAbs < 256 ^ 8) (rest : List Nat) :
    parseEntry (encEntry e ++ rest) = some (e, rest) := by
  simp only [encEntry, List.append_assoc, parseEntry,
    parseAccountId_encAccountId e.1 hs hr hn,
    parseInt8_encInt e.2 ha]

theorem parseCount_encFold {α : Type}
    (p : List Nat → Option (α × List Nat)) (f : α → List Nat) :
    ∀ (xs : List α),
      (∀ x ∈ xs, ∀ r, p (f x ++ r) = some (x, r)) → ∀ rest,
      parseCount p xs.length
        (xs.foldr (fun x acc => f x ++ acc) [] ++ rest) = some (xs, rest)
  | [], _, rest => rfl
  | x :: xs, h, rest => by
      have hx := h x (by simp) (xs.foldr (fun y acc => f y ++ acc) [] ++ rest)
      have ih := parseCount_encFold p f xs (fun y hy => h y (by simp [hy])) rest
      simp only [List.length_cons, List.foldr_cons, List.append_assoc,
        parseCount, hx, ih]

theorem parseListWith_encListWith {α : Type}
    (p : List Nat → Option (α × List Nat)) (f : α → List Nat)
    (xs : List α) (hlen : xs.length < 256 ^ 4)
    (h : ∀ x ∈ xs, ∀ r, p (f x ++ r) = some (x, r)) (rest : List Nat) :
    parseListWith p (encListWith f xs ++ rest) = some (xs, rest) := by
  simp only [encListWith, List.append_assoc, parseListWith,
    parseLE_encLE 4 xs.length hlen, parseCount_encFold p f xs h rest]

theorem parseUnsignedTx_encUnsignedTx : ∀ (t : UnsignedTx), t.Valid →
    ∀ rest, parseUnsignedTx (encUnsignedTx t ++ rest) = some (t, rest)
  | .accountCreate pk bal, h, rest => by
      obtain ⟨hlen, -, hbal⟩ := h
      simp only [encUnsignedTx, List.cons_append, List.append_assoc,
        parseUnsignedTx, parseBytes_encBytes pk hlen,
        parseInt8_encInt bal hbal]
  | .transfer entries, h, rest => by
      obtain ⟨hlen, hent⟩ := h
      have hitem : ∀ e ∈ entries, ∀ r, parseEntry (encEntry e ++ r) = some (e, r) := by
        intro e he r
        obtain ⟨hs, hr, hn, ha⟩ := hent e he
        exact parseEntry_encEntry e hs hr hn ha r
      simp only [encUnsignedTx, List.cons_append, parseUnsignedTx,
        parseListWith_encListWith parseEntry encEntry entries hlen hitem rest]

theorem parseSpecTx_encSpecTx : ∀ (t : SpecTx), t.Valid →
    ∀ rest, parseSpecTx (encSpecTx t ++ rest) = some (t, rest)
  | .unsigned t, h, rest => by
      simp only [encSpecTx, List.cons_append, parseSpecTx,
        parseUnsignedTx_encUnsignedTx t h rest]
  | .signed s, h, rest => by
      obtain ⟨hbody, hlen, hsig⟩ := h
      have hitem : ∀ g ∈ s.sigs, ∀ r, parseBytes (encBytes g ++ r) = some (g, r) := by
        intro g hg r
        exact parseBytes_encBytes g (hsig g hg).1 r
      simp only [encSpecTx, List.cons_append, List.append_assoc, parseSpecTx,
        parseUnsignedTx_encUnsignedTx s.body hbody,
        parseListWith_encListWith parseBytes encBytes s.sigs hlen hitem rest]

deriving instance DecidableEq for Except

/-! ## Concrete fixtures used by witnesses and counterexamples -/

/-- An oracle whose every network round trip succeeds. -/
def wNet : Net where
  newPublicKey := "pub"
  newPrivateKey := "priv"
  createOutcome := fun _ => .ok ⟨some "0.0.5005", "SUCCESS"⟩
  transferOutcome := fun _ => .ok ⟨"SUCCESS", "0.0.1001@1"⟩
  signOutcome := fun _ => .ok "c2ln"
  submitOutcome := fun _ => .ok ⟨"0.0.1001@2", some "0.0.3", "ab12", "SUCCESS"⟩
  signAndSubmitOutcome := fun _ => .ok (⟨"0.0.1001@3", none, "cd34", "SUCCESS"⟩, "c2ln2")

/-- A request with an unknown resource value. -/
def wReqBad : Request where
  resource := "thing"
  accountOperation := ""
  transactionOperation := ""
  transactionFormat := ""
  recipientId := ""
  amount := 0
  initialBalance := 0
  transaction := ""
  transactionBuffer := .other

/-- A well-formed base64 sign request. -/
def wReqSign : Request where
  resource := "transaction"
  accountOperation := ""
  transactionOperation := "sign"
  transactionFormat := "base64"
  recipientId := ""
  amount := 0
  initialBalance := 0
  transaction := ""
  transactionBuffer := .other

/-- A transfer of amount `0` back to the operator account itself. -/
def cx4Req : Request where
  resource := "account"
  accountOperation := "transfer"
  transactionOperation := ""
  transactionFormat := ""
  recipientId := "0.0.1001"
  amount := 0
  initialBalance := 0
  transaction := ""
  transactionBuffer := .other

/-- A transfer of a negative amount. -/
def cx4wReq : Request where
  resource := "account"
  accountOperation := "transfer"
  transactionOperation := ""
  transactionFormat := ""
  recipientId := "0.0.9"
  amount := -5
  initialBalance := 0
  transaction := ""
  transactionBuffer := .other

/-- An account-create request with a negative initial balance. -/
def cx5Req : Request where
  resource := "account"
  accountOperation := "create"
  transactionOperation := ""
  transactionFormat := ""
  recipientId := ""
  amount := 0
  initialBalance := -1
  transaction := ""
  transactionBuffer := .other

/-! ## Claim theorems -/

theorem executeLoop_continueOnFail (a : String) :
    ∀ items : List (Request × Net),
      executeLoop true a items = .ok (items.map (recordOf a))
  | [] => rfl
  | (req, net) :: rest => by
      have ih := executeLoop_continueOnFail a rest
      cases hp : processItem a req net with
      | ok r => simp only [executeLoop, hp, ih, List.map_cons, recordOf]
      | error e => simp only [executeLoop, hp, ih, List.map_cons, recordOf, if_true]

/-- Claim C1: with valid credentials and continue-on-fail active, `execute`
returns one record per input item, in input order: the success record of
each succeeding item and the `{error: message}` record of each failing
item, independently of the other items. -/
theorem execute_isolated_failures (a k nw : String) (ha : a ≠ "") (hk : k ≠ "")
    (items : List (Request × Net)) :
    execute true (some ⟨some a, some k, nw⟩) items = .ok (items.map (recordOf a)) ∧
    (items.map (recordOf a)).length = items.length ∧
    ∀ i (h : i < items.length),
      (items.map (recordOf a)).get ⟨i, by simpa⟩ = recordOf a (items.get ⟨i, h⟩) := by
  refine ⟨?_, items.length_map (recordOf a), ?_⟩
  · have hcond : ¬(falsyStr (some a) ∨ falsyStr (some k)) := by
      simp [falsyStr, ha, hk]
    simp only [execute]
    rw [if_neg hcond]
    exact executeLoop_continueOnFail a items
  · intro i h
    simp

theorem execute_isolated_failures_witness :
    execute true (some ⟨some "0.0.1001", some "key", "testnet"⟩)
      [(wReqSign, wNet), (wReqBad, wNet)] =
      .ok [.json (.signRes "c2ln"), .errorJson "Unsupported resource: thing"] :=
  ((execute_isolated_failures "0.0.1001" "key" "testnet" (by decide) (by decide)
      [(wReqSign, wNet), (wReqBad, wNet)]).1).trans (by decide)

/-- Claim C2: a missing (or empty) `accountId` or `privateKey` credential
member makes `execute` throw the configuration `NodeOperationError` for
every batch and in both modes, before any item is processed: the result is
the thrown error, carrying no record for any item. -/
theorem execute_missing_credentials (cof : Bool) (creds : Option Credentials)
    (items : List (Request × Net))
    (h : creds = none ∨
      ∃ c, creds = some c ∧ (falsyStr c.accountId ∨ falsyStr c.privateKey)) :
    execute cof creds items =
      .error (.configurationError "Hedera credentials are not set up correctly.") := by
  rcases h with h | ⟨c, rfl, hc⟩
  · subst h; rfl
  · simp only [execute]
    rw [if_pos hc]

theorem execute_missing_credentials_witness :
    execute false (some ⟨some "", some "key", "testnet"⟩) [(wReqSign, wNet)] =
      .error (.configurationError "Hedera credentials are not set up correctly.") :=
  execute_missing_credentials false (some ⟨some "", some "key", "testnet"⟩)
    [(wReqSign, wNet)] (.inr ⟨_, rfl, .inl (by decide)⟩)

/-- Claim C3: an unknown resource value, an unknown account operation, or
an unknown transaction operation each fail the item with the matching
unsupported-operation `NodeOperationError`, whose message names the
offending value. -/
theorem dispatch_unsupported_values :
    (∀ a req net, req.resource ≠ "account" → req.resource ≠ "transaction" →
        processItem a req net = .error (.unsupportedResource req.resource)) ∧
    (∀ a req net, req.resource = "account" → req.accountOperation ≠ "create" →
        req.accountOperation ≠ "transfer" →
        processItem a req net =
          .error (.unsupportedAccountOperation req.accountOperation)) ∧
    (∀ a req net, req.resource = "transaction" →
        req.transactionOperation ≠ "sign" → req.transactionOperation ≠ "submit" →
        req.transactionOperation ≠ "signAndSubmit" →
        processItem a req net =
          .error (.unsupportedTransactionOperation req.transactionOperation)) ∧
    (∀ v, errMessage (.unsupportedResource v) = "Unsupported resource: " ++ v) ∧
    (∀ v, errMessage (.unsupportedAccountOperation v) =
        "Unsupported account operation: " ++ v) ∧
    (∀ v, errMessage (.unsupportedTransactionOperation v) =
        "Unsupported transaction operation: " ++ v) := by
  refine ⟨?_, ?_, ?_, fun v => rfl, fun v => rfl, fun v => rfl⟩
  · intro a req net h1 h2
    unfold processItem
    rw [if_neg h1, if_neg h2]
  · intro a req net h1 h2 h3
    unfold processItem
    rw [if_pos h1, if_neg h2, if_neg h3]
  · intro a req net h1 h2 h3 h4
    unfold processItem
    rw [if_neg (by rw [h1]; decide), if_pos h1, if_neg h2, if_neg h3, if_neg h4]

theorem dispatch_unsupported_values_witness :
    processItem "0.0.1001" wReqBad wNet = .error (.unsupportedResource "thing") ∧
    errMessage (.unsupportedResource "thing") = "Unsupported resource: thing" :=
  ⟨dispatch_unsupported_values.1 "0.0.1001" wReqBad wNet (by decide) (by decide),
   dispatch_unsupported_values.2.2.2.1 "thing"⟩

/-- Claim C6: the transfer list the transfer branch constructs debits the
sender the negated amount and credits the recipient the amount, so its
signed amounts sum to zero. -/
theorem transferList_zero_sum (senderId recipientId : String) (tinybars : Int) :
    ((transferList senderId recipientId tinybars).map Prod.snd).sum = 0 := by
  simp [transferList]

theorem executeLoop_failFast_prefix (a : String) (e : ExecError) :
    ∀ (pre : List (Request × Net)) (item : Request × Net)
      (post : List (Request × Net)),
      (∀ it ∈ pre, ∃ r, processItem a it.1 it.2 = .ok r) →
      processItem a item.1 item.2 = .error e →
      executeLoop false a (pre ++ item :: post) = .error (.apiError e)
  | [], (req, net), post, _, hfail => by
      simp only [List.nil_append, executeLoop, hfail]
      rfl
  | (req, net) :: pre, item, post, hok, hfail => by
      obtain ⟨r, hr⟩ := hok (req, net) (by simp)
      have ih := executeLoop_failFast_prefix a e pre item post
        (fun it hit => hok it (by simp [hit])) hfail
      simp only [List.cons_append, executeLoop, List.append_eq, hr, ih]

/-- Claim C10: in fail-fast mode a failing item makes `execute` throw the
wrapping `NodeApiError`: the whole call ends in the thrown error, and the
success records of the items before the failing one are not returned. -/
theorem execute_failFast_aborts (a k nw : String) (ha : a ≠ "") (hk : k ≠ "")
    (pre : List (Request × Net)) (item : Request × Net)
    (post : List (Request × Net)) (e : ExecError)
    (hok : ∀ it ∈ pre, ∃ r, processItem a it.1 it.2 = .ok r)
    (hfail : processItem a item.1 item.2 = .error e) :
    execute false (some ⟨some a, some k, nw⟩) (pre ++ item :: post) =
      .error (.apiError e) := by
  have hcond : ¬(falsyStr (some a) ∨ falsyStr (some k)) := by
    simp [falsyStr, ha, hk]
  simp only [execute]
  rw [if_neg hcond]
  exact executeLoop_failFast_prefix a e pre item post hok hfail

theorem map_mod_id : ∀ (bs : List Nat), (∀ x ∈ bs, x < 256) →
    bs.map (· % 256) = bs
  | [], _ => rfl
  | x :: xs, h => by
      have hx : x % 256 = x := Nat.mod_eq_of_lt (h x (by simp))
      have ih := map_mod_id xs (fun y hy => h y (by simp [hy]))
      simp [hx, ih]

/-- Claim C7: for every byte sequence, decoding its base64 string in
base64 mode and decoding its wrapped-array object in buffer mode produce
the identical internal byte sequence. -/
theorem wire_formats_agree (bs : List Nat) (h : ∀ x ∈ bs, x < 256) :
    (∀ buf, getTransactionBytes "base64" ⟨encodeB64 bs⟩ buf = .ok bs) ∧
    ∀ s, getTransactionBytes "buffer" s (.obj (some bs) none none) = .ok bs := by
  constructor
  · intro buf
    unfold getTransactionBytes
    rw [if_pos rfl]
    unfold bufferFromBase64
    have hd : (String.mk (encodeB64 bs)).data = encodeB64 bs := rfl
    rw [hd, decodeB64_encodeB64 bs h]
    rfl
  · intro s
    have hmap : bs.map (· % 256) = bs := map_mod_id bs h
    unfold getTransactionBytes
    rw [if_neg (by decide)]
    show Except.ok (bs.map (· % 256)) = .ok bs
    rw [hmap]

theorem wire_formats_agree_witness :
    getTransactionBytes "base64" ⟨encodeB64 [0, 1, 77, 255]⟩ .other =
      .ok [0, 1, 77, 255] ∧
    getTransactionBytes "buffer" "" (.obj (some [0, 1, 77, 255]) none none) =
      .ok [0, 1, 77, 255] :=
  ⟨(wire_formats_agree [0, 1, 77, 255] (by decide)).1 .other,
   (wire_formats_agree [0, 1, 77, 255] (by decide)).2 ""⟩

/-- The operation-specific key set the spec assigns to each operation. -/
def expectedKeys (req : Request) : List String :=
  if req.resource = "account" then
    if req.accountOperation = "create" then
      ["newAccountId", "newAccountPublicKey", "newAccountPrivateKey"]
    else ["status", "transactionId"]
  else if req.transactionOperation = "sign" then ["signedTransaction"]
  else if req.transactionOperation = "submit" then
    ["transactionId", "nodeId", "transactionHash", "status"]
  else
    ["transactionId", "nodeId", "transactionHash", "status",
     "signedTransaction"]

/-- Claim C8: every success record carries exactly the operation-specific
fields of its request's operation. -/
theorem result_record_fields (a : String) (req : Request) (net : Net)
    (r : ExecResult) (h : processItem a req net = .ok r) :
    resultKeys r = expectedKeys req := by
  unfold processItem at h
  repeat' split at h
  all_goals simp_all [resultKeys, expectedKeys]
  all_goals try subst r
  all_goals simp_all [resultKeys, expectedKeys]

theorem result_record_fields_witness :
    processItem "0.0.1001" wReqSign wNet = .ok (.signRes "c2ln") ∧
    resultKeys (.signRes "c2ln") = expectedKeys wReqSign :=
  ⟨by decide,
   result_record_fields "0.0.1001" wReqSign wNet (.signRes "c2ln") (by decide)⟩

/-- Counterexample to claim C4: the transfer handler performs no local
validation.  A transfer of amount `0` whose recipient is the operator
account itself raises no `ValidationError`: the transaction is submitted
and the item succeeds with the network's outcome. -/
theorem transfer_no_validation_counterexample :
    cx4Req.amount ≤ 0 ∧ cx4Req.recipientId = "0.0.1001" ∧
    processItem "0.0.1001" cx4Req wNet =
      .ok (.transferRes "SUCCESS" "0.0.1001@1") := by
  refine ⟨le_refl (0 : ℚ), rfl, ?_⟩
  have hm : amountFromMajor cx4Req.amount = .ok 0 :=
    amountFromMajor_eq_ok _ 0 (by norm_num [cx4Req])
  unfold processItem
  rw [if_pos (show cx4Req.resource = "account" from rfl),
    if_neg (show ¬cx4Req.accountOperation = "create" by decide),
    if_pos (show cx4Req.accountOperation = "transfer" from rfl), hm]
  rfl

/-- Claim C4 as amended: the transfer branch performs no validation of the
amount or of sender/recipient distinctness; whenever the amount converts
to tinybars (however signed, and whoever the recipient) the transfer list
is built and submitted, and the item's outcome is the network's. -/
theorem transfer_submits_without_validation (a : String) (req : Request)
    (net : Net) (t : Int) (hres : req.resource = "account")
    (hop : req.accountOperation = "transfer")
    (hamt : amountFromMajor req.amount = .ok t) :
    processItem a req net =
      (match net.transferOutcome (transferList a req.recipientId t) with
       | .ok out => .ok (.transferRes out.status out.transactionId)
       | .error e => .error e) := by
  unfold processItem
  rw [if_pos hres, if_neg (by rw [hop]; decide), if_pos hop, hamt]
  cases hnet : net.transferOutcome (transferList a req.recipientId t) with
  | ok out => simp [hnet]
  | error e => simp [hnet]

theorem transfer_submits_without_validation_witness :
    processItem "0.0.9" cx4wReq wNet =
      .ok (.transferRes "SUCCESS" "0.0.1001@1") :=
  (transfer_submits_without_validation "0.0.9" cx4wReq wNet (-500000000) rfl rfl
    (amountFromMajor_eq_ok _ _ (by norm_num [cx4wReq]))).trans rfl

/-- Counterexample to claim C5: a negative initial balance is not
rejected.  The create handler converts `-1` HBAR without a sign check and
submits the account creation, which succeeds with the network's outcome. -/
theorem amount_negative_balance_counterexample :
    cx5Req.initialBalance < 0 ∧
    processItem "0.0.1001" cx5Req wNet =
      .ok (.createRes "0.0.5005" "pub" "priv") := by
  constructor
  · show (-1 : ℚ) < 0
    norm_num
  · have hm : amountFromMajor cx5Req.initialBalance = .ok (-100000000) :=
      amountFromMajor_eq_ok _ _ (by norm_num [cx5Req])
    unfold processItem
    rw [if_pos (show cx5Req.resource = "account" from rfl),
      if_pos (show cx5Req.accountOperation = "create" from rfl), hm]
    rfl

/-- Claim C5 as amended: amount construction rejects every decimal value
without an 8-decimal representation and accepts every value with one
(the integer tinybar count is returned exactly); but a negative initial
balance is not rejected locally: the create branch passes any converted
balance, negative included, to the network. -/
theorem amount_precision_and_create_balance :
    (∀ q : ℚ, (¬ ∃ n : ℤ, q = (n : ℚ) / 10 ^ 8) →
        amountFromMajor q = .error .hbarDecimals) ∧
    (∀ n : ℤ, amountFromMajor ((n : ℚ) / 10 ^ 8) = .ok n) ∧
    (∀ a req net, req.resource = "account" →
      req.accountOperation = "create" →
      ∀ bal : Int, amountFromMajor req.initialBalance = .ok bal →
        processItem a req net =
          (match net.createOutcome bal with
           | .error e => .error e
           | .ok receipt =>
               match receipt.accountId with
               | none =>
                   .error (.operationError
                     ("Account creation failed: " ++ receipt.status))
               | some acct =>
                   .ok (.createRes acct net.newPublicKey net.newPrivateKey))) := by
  refine ⟨?_, ?_, ?_⟩
  · intro q hq
    have hd : ¬(q * 10 ^ 8).den = 1 := by
      intro hd
      apply hq
      refine ⟨(q * 10 ^ 8).num, ?_⟩
      have hnum : ((q * 10 ^ 8).num : ℚ) = q * 10 ^ 8 := by
        exact_mod_cast (Rat.den_eq_one_iff _).mp hd
      rw [eq_div_iff (by norm_num : (10 ^ 8 : ℚ) ≠ 0)]
      exact hnum.symm
    unfold amountFromMajor
    rw [if_neg hd]
  · intro n
    refine amountFromMajor_eq_ok _ n ?_
    field_simp
  · intro a req net hres hop bal hbal
    unfold processItem
    rw [if_pos hres, if_pos hop, hbal]

theorem amount_precision_and_create_balance_witness :
    amountFromMajor (1 / 10 ^ 9 : ℚ) = .error .hbarDecimals ∧
    amountFromMajor (((12345678 : ℤ) : ℚ) / 10 ^ 8) = .ok 12345678 ∧
    processItem "0.0.1001" cx5Req wNet =
      .ok (.createRes "0.0.5005" "pub" "priv") := by
  refine ⟨amount_precision_and_create_balance.1 (1 / 10 ^ 9) ?_,
          amount_precision_and_create_balance.2.1 12345678, ?_⟩
  · rintro ⟨n, hn⟩
    rw [div_eq_div_iff (by norm_num) (by norm_num)] at hn
    have hz : (1 * 10 ^ 8 : ℤ) = n * 10 ^ 9 := by exact_mod_cast hn
    omega
  · have h := amount_precision_and_create_balance.2.2 "0.0.1001" cx5Req wNet
      rfl rfl (-100000000) (amountFromMajor_eq_ok _ _ (by norm_num [cx5Req]))
    rw [h]
    rfl

/-- Claim C9: for every valid unsigned or signed transaction, decoding the
encoding returns the transaction exactly. -/
theorem codec_round_trip (t : SpecTx) (h : t.Valid) :
    decode (encode t) = some t := by
  have hp := parseSpecTx_encSpecTx t h []
  rw [List.append_nil] at hp
  simp only [decode, encode, hp]
  rfl

/-- A signed two-party transfer used to evaluate the codec. -/
def wTx : SpecTx :=
  .signed ⟨.transfer [(⟨0, 0, 1001⟩, -150), (⟨0, 0, 2002⟩, 150)], [[1, 2, 3]]⟩

theorem codec_round_trip_witness : decode (encode wTx) = some wTx :=
  codec_round_trip wTx
    (by
      refine ⟨⟨by decide, ?_⟩, by decide, ?_⟩
      · intro e he
        fin_cases he <;> exact ⟨by decide, by decide, by decide, by decide⟩
      · intro g hg
        fin_cases hg
        exact ⟨by decide, by decide⟩)

theorem execute_failFast_aborts_witness :
    execute false (some ⟨some "0.0.1001", some "key", "testnet"⟩)
      ([(wReqSign, wNet)] ++ (wReqBad, wNet) :: [(wReqSign, wNet)]) =
      .error (.apiError (.unsupportedResource "thing")) :=
  execute_failFast_aborts "0.0.1001" "key" "testnet" (by decide) (by decide)
    [(wReqSign, wNet)] (wReqBad, wNet) [(wReqSign, wNet)]
    (.unsupportedResource "thing")
    (by
      intro it hit
      rw [List.mem_singleton] at hit
      subst hit
      exact ⟨.signRes "c2ln", by decide⟩)
    (by decide)

end HederaNode
